import Mathlib

set_option maxHeartbeats 1000000

/-!
Shallow embedding of the enumeration-and-dedup engine of
`telegram-scraper-native` (`src/lib.rs`), together with its
foreign-boundary layer.  External collaborators (the grammers Telegram
client: username resolution, the per-pattern participant search, session
loading) are passed in as explicit function parameters; the repository's
stubbed search backend (`scrape_with_pattern`) is embedded as `stubSearch`.
Machine integers in the source (`i64`, `u32`) stay far below their bounds
on every reachable value here, so they are modelled as `Int`/`Nat` without
wrap-around.
-/

namespace Scraper

/-- Member record (lib.rs `TelegramMember`).  The four raw C-string
pointer fields are modelled as `Option String` (null pointer ↦ `none`). -/
structure TelegramMember where
  id : Int
  username : Option String
  first_name : Option String
  last_name : Option String
  phone : Option String
  is_premium : Bool
  last_online : Int
  deriving DecidableEq, Repr

/-- Engine state (lib.rs `ScraperEngine`).  `client : Option Unit` records
whether a Transport session is present; `members_cache` is the id-keyed
cache kept in insertion order (each key is inserted at most once, guarded
by `dedup_set`, so an append-only association list is a faithful model of
the `DashMap` plus its insertion history); `dedup_set` is the `HashSet`
of already-seen ids.  The `runtime`, `is_running` and `work_queue` fields
of the source are never observed by any operation and are omitted. -/
structure ScraperEngine where
  client : Option Unit
  members_cache : List (Int × TelegramMember)
  dedup_set : List Int
  deriving DecidableEq, Repr

/-- lib.rs `ScraperEngine::new`: empty caches, no client. -/
def ScraperEngine.new : ScraperEngine :=
  { client := none, members_cache := [], dedup_set := [] }

/-- lib.rs `add_unique_member`: returns `true` and stores the record iff
its id is not yet in the dedup set; otherwise returns `false` and leaves
the engine untouched. -/
def add_unique_member (eng : ScraperEngine) (member : TelegramMember) :
    Bool × ScraperEngine :=
  if member.id ∈ eng.dedup_set then (false, eng)
  else (true,
    { eng with
      members_cache := eng.members_cache ++ [(member.id, member)],
      dedup_set := member.id :: eng.dedup_set })

/-- lib.rs `scrape_with_pattern` (the stubbed search backend): synthesizes
`min limit 50` records with `id = i + pattern.len() * 1000`; `now` stands
for `chrono::Utc::now().timestamp()`. -/
def scrape_with_pattern (pattern : String) (limit : Nat) (now : Int) :
    List TelegramMember :=
  (List.range (min limit 50)).map fun i : Nat =>
    { id := (i : Int) + (pattern.length : Int) * 1000
      username := some ("user_" ++ pattern ++ toString i)
      first_name := some ("User" ++ toString i)
      last_name := some ("Last" ++ toString i)
      phone := none
      is_premium := i % 10 == 0
      last_online := now }

/-- The stub backend as a search capability: always succeeds. -/
def stubSearch (now : Int) : String → Nat → Except String (List TelegramMember) :=
  fun pattern limit => .ok (scrape_with_pattern pattern limit now)

/-- The fixed sweep list of lib.rs `scrape_channel`. -/
def patterns : List String := ["", "a", "e", "i", "o", "u", "s", "t", "n", "r"]

/-- Inner loop of `scrape_channel` over one batch: each record goes through
`add_unique_member`; fresh records are appended to the result and counted,
and the batch is cut off once `scraped` reaches `max_members`. -/
def processBatch : List TelegramMember → Nat → Nat → List TelegramMember →
    ScraperEngine → List TelegramMember × Nat × ScraperEngine
  | [], _, scraped, acc, eng => (acc, scraped, eng)
  | member :: rest, max_members, scraped, acc, eng =>
    let r := add_unique_member eng member
    if r.1 then
      if scraped + 1 ≥ max_members then (acc ++ [member], scraped + 1, r.2)
      else processBatch rest max_members (scraped + 1) (acc ++ [member]) r.2
    else processBatch rest max_members scraped acc r.2

/-- Outer loop of `scrape_channel` over the pattern list: stops when
`scraped ≥ max_members`, queries the search capability with the remaining
budget, and on `TransientError` (`.error`) logs and skips the pattern.
The 2-second rate-limiting sleep has no observable effect and is not
modelled. -/
def scrapeLoop (search : String → Nat → Except String (List TelegramMember)) :
    List String → Nat → Nat → List TelegramMember → ScraperEngine →
    List TelegramMember × ScraperEngine
  | [], _, _, acc, eng => (acc, eng)
  | pat :: ps, max_members, scraped, acc, eng =>
    if scraped ≥ max_members then (acc, eng)
    else
      match search pat (max_members - scraped) with
      | .ok batch =>
        let r := processBatch batch max_members scraped acc eng
        scrapeLoop search ps max_members r.2.1 r.1 r.2.2
      | .error _ => scrapeLoop search ps max_members scraped acc eng

/-- lib.rs `scrape_channel`: requires a connected client, resolves the
target (`resolve` models `client.resolve_username`: `.error` is a failed
call, `.ok none` is "not found"), then sweeps the fixed pattern list. -/
def scrape_channel (resolve : String → Except String (Option Unit))
    (search : String → Nat → Except String (List TelegramMember))
    (eng : ScraperEngine) (target : String) (max_members : Nat) :
    Except String (List TelegramMember) × ScraperEngine :=
  match eng.client with
  | none => (.error "Client not connected", eng)
  | some _ =>
    match resolve target with
    | .error e => (.error ("Failed to resolve " ++ target ++ ": " ++ e), eng)
    | .ok none => (.error ("Target " ++ target ++ " not found"), eng)
    | .ok (some _) =>
      let r := scrapeLoop search patterns max_members 0 [] eng
      (.ok r.1, r.2)

/-- lib.rs `connect`: loads/creates the session file (`load`), then hands
the credentials to the external grammers client (`clientConnect`); only on
success is `self.client` set.  The constant `InitParams` metadata has no
observable effect and is not modelled. -/
def connect (load : String → Except String Unit)
    (clientConnect : Int → String → Except String Unit)
    (eng : ScraperEngine) (api_id : Int) (api_hash : String)
    (session_file : String) : Except String Unit × ScraperEngine :=
  match load session_file with
  | .error e => (.error ("Session error: " ++ e), eng)
  | .ok _ =>
    match clientConnect api_id api_hash with
    | .error e => (.error ("Connection failed: " ++ e), eng)
    | .ok _ => (.ok (), { eng with client := some () })

/-- FFI `scraper_init`.  Its first statement is
`tracing_subscriber::fmt::init()`, which installs the process-global
tracing subscriber and panics (`try_init().expect`) whenever a global
subscriber is already installed — that is, on every call after the first
in the process, `scraper_destroy` notwithstanding (destroy does not
uninstall the subscriber).  The panic aborts the call before the engine
slot is touched; it is modelled as the `none` outcome, with the pre-call
state left in place, and `subscriber_installed` models whether the global
subscriber is present.  On the non-panicking path the engine slot is
unconditionally replaced with a fresh engine, the subscriber becomes
installed, and 1 is returned. -/
def scraper_init (subscriber_installed : Bool) (_g : Option ScraperEngine) :
    Option (Int × Bool × Option ScraperEngine) :=
  if subscriber_installed then none
  else some (1, true, some ScraperEngine.new)

/-- FFI `scraper_connect`: 0 when the engine slot is empty; otherwise runs
`connect` and collapses its result to 1/0.  (The CStr decoding of the two
string arguments is assumed valid UTF-8; a decoding failure also yields
0 without touching the engine.) -/
def scraper_connect (load : String → Except String Unit)
    (clientConnect : Int → String → Except String Unit)
    (g : Option ScraperEngine) (api_id : Int) (api_hash : String)
    (session_file : String) : Int × Option ScraperEngine :=
  match g with
  | none => (0, none)
  | some eng =>
    match connect load clientConnect eng api_id api_hash session_file with
    | (.ok _, eng') => (1, some eng')
    | (.error _, eng') => (0, some eng')

/-- FFI `scraper_scrape_channel`: 0 when the engine slot is empty;
otherwise runs `scrape_channel`, and on success hands the member array
back through the out-parameters (modelled as the third component) and
returns 1. -/
def scraper_scrape_channel (resolve : String → Except String (Option Unit))
    (search : String → Nat → Except String (List TelegramMember))
    (g : Option ScraperEngine) (target : String) (max_members : Nat) :
    Int × Option ScraperEngine × Option (List TelegramMember) :=
  match g with
  | none => (0, none, none)
  | some eng =>
    match scrape_channel resolve search eng target max_members with
    | (.ok members, eng') => (1, some eng', some members)
    | (.error _, eng') => (0, some eng', none)

/-- FFI `scraper_destroy`: empties the engine slot. -/
def scraper_destroy (_g : Option ScraperEngine) : Option ScraperEngine := none

/-- A resolver that succeeds on every target. -/
def resolveOk : String → Except String (Option Unit) := fun _ => .ok (some ())

/-- Engine state of a fresh context right after a successful `connect`:
session present, caches empty. -/
def connectedFresh : ScraperEngine :=
  { client := some (), members_cache := [], dedup_set := [] }

/-- Wraps a search capability so that one designated pattern fails with a
`TransientError` while every other pattern behaves as before. -/
def failOn (failp msg : String)
    (search : String → Nat → Except String (List TelegramMember)) :
    String → Nat → Except String (List TelegramMember) :=
  fun pat limit => if pat = failp then .error msg else search pat limit

/-- The 100 ids the stub backend can ever produce under the fixed pattern
list: `0..49` (empty pattern) and `1000..1049` (single-char patterns). -/
def allowedIds : List Int :=
  (List.range 50).map (fun i : Nat => (i : Int)) ++
    (List.range 50).map (fun i : Nat => 1000 + (i : Int))

/-! ### Generic list helper lemmas -/

theorem find_append_some {α : Type} {p : α → Bool} {l₁ : List α} (l₂ : List α)
    {b : α} (h : l₁.find? p = some b) : (l₁ ++ l₂).find? p = some b := by
  induction l₁ with
  | nil => simp [List.find?] at h
  | cons x xs ih =>
    by_cases hx : p x
    · simp [List.find?, hx] at h ⊢
      exact h
    · simp only [List.find?_cons_of_neg _ hx] at h
      simpa [List.find?_cons_of_neg _ hx] using ih h

theorem find_append_none {α : Type} {p : α → Bool} {l₁ : List α} (l₂ : List α)
    (h : l₁.find? p = none) : (l₁ ++ l₂).find? p = l₂.find? p := by
  induction l₁ with
  | nil => simp
  | cons x xs ih =>
    by_cases hx : p x
    · simp [List.find?, hx] at h
    · simp only [List.find?_cons_of_neg _ hx] at h
      simpa [List.find?_cons_of_neg _ hx] using ih h

/-! ### Structural characterization of the batch loop -/

/-- Full characterization of `processBatch`: some sublist `new` of fresh
records (pairwise-distinct ids not yet in the dedup set) is appended to
the result, appended to the members cache in the same order, and pushed
onto the dedup set; the scraped counter advances by `new.length` and never
passes `max_members`. -/
theorem processBatch_spec (batch : List TelegramMember) (maxM scraped : Nat)
    (acc : List TelegramMember) (eng : ScraperEngine) :
    ∃ new : List TelegramMember,
      processBatch batch maxM scraped acc eng =
        (acc ++ new, scraped + new.length,
          { client := eng.client,
            members_cache := eng.members_cache ++ new.map (fun m => (m.id, m)),
            dedup_set := (new.map (fun m => m.id)).reverse ++ eng.dedup_set }) ∧
      (∀ m ∈ new, m.id ∉ eng.dedup_set ∧ m ∈ batch) ∧
      (new.map (fun m => m.id)).Nodup ∧
      (scraped < maxM → scraped + new.length ≤ maxM) := by
  induction batch generalizing scraped acc eng with
  | nil =>
    refine ⟨[], ?_, by simp, by simp, fun h => by simp only [List.length_nil]; omega⟩
    simp [processBatch]
  | cons member rest ih =>
    by_cases hmem : member.id ∈ eng.dedup_set
    · -- duplicate id: the engine is untouched and the record is dropped
      obtain ⟨new, heq, hfresh, hnd, hbd⟩ := ih scraped acc eng
      refine ⟨new, ?_, ?_, hnd, hbd⟩
      · simpa [processBatch, add_unique_member, hmem] using heq
      · exact fun x hx => ⟨(hfresh x hx).1, List.mem_cons_of_mem _ (hfresh x hx).2⟩
    · -- fresh id: the record is stored
      by_cases hbreak : scraped + 1 ≥ maxM
      · refine ⟨[member], ?_, ?_, by simp,
          fun h => by simp only [List.length_singleton]; omega⟩
        · simp [processBatch, add_unique_member, hmem, hbreak]
        · intro x hx
          simp only [List.mem_singleton] at hx
          subst hx
          exact ⟨hmem, List.mem_cons_self _ _⟩
      · obtain ⟨new, heq, hfresh, hnd, hbd⟩ := ih (scraped + 1) (acc ++ [member])
          { eng with
            members_cache := eng.members_cache ++ [(member.id, member)],
            dedup_set := member.id :: eng.dedup_set }
        have hnotnew : member.id ∉ new.map (fun m => m.id) := by
          intro hin
          obtain ⟨x, hx, hxid⟩ := List.mem_map.mp hin
          exact (hfresh x hx).1 (by simp [hxid])
        refine ⟨member :: new, ?_, ?_, ?_, ?_⟩
        · rw [show processBatch (member :: rest) maxM scraped acc eng =
              processBatch rest maxM (scraped + 1) (acc ++ [member])
                { eng with
                  members_cache := eng.members_cache ++ [(member.id, member)],
                  dedup_set := member.id :: eng.dedup_set } by
            simp [processBatch, add_unique_member, hmem, hbreak]]
          rw [heq]
          simp only [Prod.mk.injEq, ScraperEngine.mk.injEq]
          refine ⟨by simp, by simp only [List.length_cons]; omega, by trivial, by simp,
            by simp [List.reverse_cons]⟩
        · intro x hx
          rcases List.mem_cons.mp hx with hx | hx
          · subst hx
            exact ⟨hmem, List.mem_cons_self _ _⟩
          · refine ⟨fun hc => (hfresh x hx).1 (by simp [hc]), ?_⟩
            exact List.mem_cons_of_mem _ (hfresh x hx).2
        · rw [List.map_cons]
          exact List.nodup_cons.mpr ⟨hnotnew, hnd⟩
        · intro h
          have := hbd (by omega)
          simp only [List.length_cons]
          omega

/-- When a batch consists of pairwise-distinct, not-yet-seen ids, the
scraped counter advances by exactly `min batch.length (maxM - scraped)`:
the whole batch is consumed unless the cap cuts it off. -/
theorem processBatch_count (batch : List TelegramMember) (maxM scraped : Nat)
    (acc : List TelegramMember) (eng : ScraperEngine)
    (hnd : (batch.map (fun m => m.id)).Nodup)
    (hfresh : ∀ m ∈ batch, m.id ∉ eng.dedup_set)
    (hlt : scraped < maxM) :
    (processBatch batch maxM scraped acc eng).2.1 =
      scraped + min batch.length (maxM - scraped) := by
  induction batch generalizing scraped acc eng with
  | nil => simp [processBatch]
  | cons member rest ih =>
    have hmem : member.id ∉ eng.dedup_set := hfresh member (List.mem_cons_self _ _)
    by_cases hbreak : scraped + 1 ≥ maxM
    · rw [show processBatch (member :: rest) maxM scraped acc eng =
          (acc ++ [member], scraped + 1,
            { eng with
              members_cache := eng.members_cache ++ [(member.id, member)],
              dedup_set := member.id :: eng.dedup_set }) from by
        simp [processBatch, add_unique_member, hmem, hbreak]]
      simp only [List.length_cons]
      omega
    · have hnd' : (rest.map (fun m => m.id)).Nodup := by
        rw [List.map_cons] at hnd
        exact (List.nodup_cons.mp hnd).2
      have hmemrest : member.id ∉ rest.map (fun m => m.id) := by
        rw [List.map_cons] at hnd
        exact (List.nodup_cons.mp hnd).1
      have hfresh' : ∀ m ∈ rest,
          m.id ∉ ({ eng with
            members_cache := eng.members_cache ++ [(member.id, member)],
            dedup_set := member.id :: eng.dedup_set } : ScraperEngine).dedup_set := by
        intro x hx
        simp only [List.mem_cons]
        push_neg
        refine ⟨?_, hfresh x (List.mem_cons_of_mem _ hx)⟩
        intro hc
        exact hmemrest (List.mem_map.mpr ⟨x, hx, hc⟩)
      have := ih (scraped + 1) (acc ++ [member])
        { eng with
          members_cache := eng.members_cache ++ [(member.id, member)],
          dedup_set := member.id :: eng.dedup_set } hnd' hfresh' (by omega)
      rw [show processBatch (member :: rest) maxM scraped acc eng =
          processBatch rest maxM (scraped + 1) (acc ++ [member])
            { eng with
              members_cache := eng.members_cache ++ [(member.id, member)],
              dedup_set := member.id :: eng.dedup_set } from by
        simp [processBatch, add_unique_member, hmem, hbreak]]
      rw [this]
      simp only [List.length_cons]
      omega

/-- Once the scraped counter has reached the cap, the pattern loop is a
no-op for any remaining pattern list. -/
theorem scrapeLoop_stop (search : String → Nat → Except String (List TelegramMember))
    (ps : List String) (maxM scraped : Nat) (acc : List TelegramMember)
    (eng : ScraperEngine) (h : maxM ≤ scraped) :
    scrapeLoop search ps maxM scraped acc eng = (acc, eng) := by
  cases ps with
  | nil => rfl
  | cons p ps => simp [scrapeLoop, h]

/-- Full characterization of the pattern sweep: some list `new` of fresh,
pairwise-distinct records — each coming from a successful batch of one of
the swept patterns — is appended to the result and to the members cache in
insertion order, pushed onto the dedup set, and capped by `max_members`. -/
theorem scrapeLoop_spec (search : String → Nat → Except String (List TelegramMember))
    (ps : List String) (maxM scraped : Nat) (acc : List TelegramMember)
    (eng : ScraperEngine) :
    ∃ new : List TelegramMember,
      scrapeLoop search ps maxM scraped acc eng =
        (acc ++ new,
          { client := eng.client,
            members_cache := eng.members_cache ++ new.map (fun m => (m.id, m)),
            dedup_set := (new.map (fun m => m.id)).reverse ++ eng.dedup_set }) ∧
      (∀ m ∈ new, m.id ∉ eng.dedup_set) ∧
      (new.map (fun m => m.id)).Nodup ∧
      (∀ m ∈ new, ∃ p ∈ ps, ∃ l b, search p l = .ok b ∧ m ∈ b) ∧
      (scraped < maxM → scraped + new.length ≤ maxM) ∧
      (maxM ≤ scraped → new = []) := by
  induction ps generalizing scraped acc eng with
  | nil =>
    refine ⟨[], by simp [scrapeLoop], by simp, by simp, by simp, ?_, fun _ => rfl⟩
    intro h
    simp only [List.length_nil]
    omega
  | cons p ps ih =>
    by_cases hstop : scraped ≥ maxM
    · refine ⟨[], ?_, by simp, by simp, by simp, fun h => by omega, fun _ => rfl⟩
      simp [scrapeLoop, hstop]
    · cases hsp : search p (maxM - scraped) with
      | error e =>
        obtain ⟨new, heq, hfresh, hnd, hsrc, hbd, hstop'⟩ := ih scraped acc eng
        refine ⟨new, ?_, hfresh, hnd, ?_, hbd, fun h => by omega⟩
        · rw [show scrapeLoop search (p :: ps) maxM scraped acc eng =
              scrapeLoop search ps maxM scraped acc eng by
            simp [scrapeLoop, hstop, hsp]]
          exact heq
        · intro m hm
          obtain ⟨q, hq, hrest⟩ := hsrc m hm
          exact ⟨q, List.mem_cons_of_mem _ hq, hrest⟩
      | ok batch =>
        obtain ⟨new₁, heq₁, hfresh₁, hnd₁, hbd₁⟩ :=
          processBatch_spec batch maxM scraped acc eng
        obtain ⟨new₂, heq₂, hfresh₂, hnd₂, hsrc₂, hbd₂, hstop₂⟩ :=
          ih (scraped + new₁.length) (acc ++ new₁)
            { client := eng.client,
              members_cache := eng.members_cache ++ new₁.map (fun m => (m.id, m)),
              dedup_set := (new₁.map (fun m => m.id)).reverse ++ eng.dedup_set }
        have hstep : scrapeLoop search (p :: ps) maxM scraped acc eng =
            scrapeLoop search ps maxM (scraped + new₁.length) (acc ++ new₁)
              { client := eng.client,
                members_cache := eng.members_cache ++ new₁.map (fun m => (m.id, m)),
                dedup_set := (new₁.map (fun m => m.id)).reverse ++ eng.dedup_set } := by
          simp only [scrapeLoop, if_neg hstop, hsp]
          rw [heq₁]
        have hfresh₂' : ∀ m ∈ new₂, m.id ∉ new₁.map (fun x => x.id) ∧
            m.id ∉ eng.dedup_set := by
          intro m hm
          have := hfresh₂ m hm
          simp only [List.mem_append, List.mem_reverse] at this
          push_neg at this
          exact this
        refine ⟨new₁ ++ new₂, ?_, ?_, ?_, ?_, ?_, fun h => by omega⟩
        · rw [hstep, heq₂]
          simp only [Prod.mk.injEq, ScraperEngine.mk.injEq]
          refine ⟨by simp, by trivial, by simp, by simp [List.reverse_append]⟩
        · intro m hm
          rcases List.mem_append.mp hm with hm | hm
          · exact (hfresh₁ m hm).1
          · exact (hfresh₂' m hm).2
        · rw [List.map_append]
          refine List.Nodup.append hnd₁ hnd₂ ?_
          intro x hx₁ hx₂
          obtain ⟨m, hm, hmid⟩ := List.mem_map.mp hx₂
          exact (hfresh₂' m hm).1 (hmid ▸ hx₁)
        · intro m hm
          rcases List.mem_append.mp hm with hm | hm
          · exact ⟨p, List.mem_cons_self _ _, maxM - scraped, batch, hsp,
              (hfresh₁ m hm).2⟩
          · obtain ⟨q, hq, hrest⟩ := hsrc₂ m hm
            exact ⟨q, List.mem_cons_of_mem _ hq, hrest⟩
        · intro h
          have h₁ : scraped + new₁.length ≤ maxM := hbd₁ (by omega)
          by_cases h₂ : scraped + new₁.length < maxM
          · have := hbd₂ h₂
            simp only [List.length_append]
            omega
          · have : new₂ = [] := hstop₂ (by omega)
            subst this
            simp only [List.length_append, List.length_nil]
            omega

/-- Inversion of a successful `scrape_channel` call: the client was
connected, the target resolved, and the result is that of the pattern
sweep started from empty accumulators. -/
theorem scrape_channel_ok_inv (resolve : String → Except String (Option Unit))
    (search : String → Nat → Except String (List TelegramMember))
    (eng : ScraperEngine) (target : String) (maxM : Nat)
    (members : List TelegramMember) (eng' : ScraperEngine)
    (h : scrape_channel resolve search eng target maxM = (.ok members, eng')) :
    eng.client = some () ∧ resolve target = .ok (some ()) ∧
      scrapeLoop search patterns maxM 0 [] eng = (members, eng') := by
  unfold scrape_channel at h
  cases hc : eng.client with
  | none => rw [hc] at h; simp at h
  | some u =>
    rw [hc] at h
    cases hr : resolve target with
    | error e => rw [hr] at h; simp at h
    | ok o =>
      rw [hr] at h
      cases o with
      | none => simp at h
      | some v =>
        simp only [Prod.mk.injEq, Except.ok.injEq] at h
        exact ⟨by simp [hc], by simp [hr], Prod.ext h.1 h.2⟩

/-- A pattern whose query fails with a `TransientError` is skipped without
aborting the sweep: sweeping with `failOn failp msg search` is the same as
sweeping with `search` over the pattern list with `failp` removed. -/
theorem scrapeLoop_failOn (search : String → Nat → Except String (List TelegramMember))
    (failp msg : String) (ps : List String) (maxM scraped : Nat)
    (acc : List TelegramMember) (eng : ScraperEngine) :
    scrapeLoop (failOn failp msg search) ps maxM scraped acc eng =
      scrapeLoop search (ps.filter (fun p => p != failp)) maxM scraped acc eng := by
  induction ps generalizing scraped acc eng with
  | nil => rfl
  | cons p ps ih =>
    by_cases hstop : scraped ≥ maxM
    · rw [scrapeLoop_stop _ _ _ _ _ _ hstop, scrapeLoop_stop _ _ _ _ _ _ hstop]
    · by_cases hp : p = failp
      · subst hp
        have hfail : failOn p msg search p (maxM - scraped) = .error msg := by
          simp [failOn]
        rw [show scrapeLoop (failOn p msg search) (p :: ps) maxM scraped acc eng =
            scrapeLoop (failOn p msg search) ps maxM scraped acc eng from by
          simp [scrapeLoop, hstop, hfail]]
        rw [show (p :: ps).filter (fun q => q != p) = ps.filter (fun q => q != p)
            from by simp [List.filter_cons]]
        exact ih scraped acc eng
      · have hkeep : failOn failp msg search p (maxM - scraped) =
            search p (maxM - scraped) := by simp [failOn, hp]
        rw [show (p :: ps).filter (fun q => q != failp) =
            p :: ps.filter (fun q => q != failp) from by simp [List.filter_cons, hp]]
        cases hsp : search p (maxM - scraped) with
        | error e =>
          rw [show scrapeLoop (failOn failp msg search) (p :: ps) maxM scraped acc eng =
              scrapeLoop (failOn failp msg search) ps maxM scraped acc eng from by
            simp [scrapeLoop, hstop, hkeep, hsp]]
          rw [show scrapeLoop search (p :: ps.filter (fun q => q != failp))
              maxM scraped acc eng =
              scrapeLoop search (ps.filter (fun q => q != failp)) maxM scraped acc eng
              from by simp [scrapeLoop, hstop, hsp]]
          exact ih scraped acc eng
        | ok batch =>
          have h₁ : scrapeLoop (failOn failp msg search) (p :: ps) maxM scraped acc eng =
              scrapeLoop (failOn failp msg search) ps maxM
                (processBatch batch maxM scraped acc eng).2.1
                (processBatch batch maxM scraped acc eng).1
                (processBatch batch maxM scraped acc eng).2.2 := by
            simp [scrapeLoop, hstop, hkeep, hsp]
          have h₂ : scrapeLoop search (p :: ps.filter (fun q => q != failp))
              maxM scraped acc eng =
              scrapeLoop search (ps.filter (fun q => q != failp)) maxM
                (processBatch batch maxM scraped acc eng).2.1
                (processBatch batch maxM scraped acc eng).1
                (processBatch batch maxM scraped acc eng).2.2 := by
            simp [scrapeLoop, hstop, hsp]
          rw [h₁, h₂]
          exact ih _ _ _

/-! ### Seen-stream instrumentation

`processBatchS`/`scrapeLoopS` mirror `processBatch`/`scrapeLoop` exactly
while also recording, in processing order, every record that was offered
to `add_unique_member` — the records "seen during the sweep". -/

/-- `processBatch` instrumented with the list of records seen so far. -/
def processBatchS : List TelegramMember → Nat → Nat → List TelegramMember →
    ScraperEngine → List TelegramMember →
    List TelegramMember × Nat × ScraperEngine × List TelegramMember
  | [], _, scraped, acc, eng, seen => (acc, scraped, eng, seen)
  | member :: rest, max_members, scraped, acc, eng, seen =>
    let r := add_unique_member eng member
    if r.1 then
      if scraped + 1 ≥ max_members then
        (acc ++ [member], scraped + 1, r.2, seen ++ [member])
      else processBatchS rest max_members (scraped + 1) (acc ++ [member]) r.2
        (seen ++ [member])
    else processBatchS rest max_members scraped acc r.2 (seen ++ [member])

/-- `scrapeLoop` instrumented with the list of records seen so far. -/
def scrapeLoopS (search : String → Nat → Except String (List TelegramMember)) :
    List String → Nat → Nat → List TelegramMember → ScraperEngine →
    List TelegramMember →
    List TelegramMember × ScraperEngine × List TelegramMember
  | [], _, _, acc, eng, seen => (acc, eng, seen)
  | pat :: ps, max_members, scraped, acc, eng, seen =>
    if scraped ≥ max_members then (acc, eng, seen)
    else
      match search pat (max_members - scraped) with
      | .ok batch =>
        let r := processBatchS batch max_members scraped acc eng seen
        scrapeLoopS search ps max_members r.2.1 r.1 r.2.2.1 r.2.2.2
      | .error _ => scrapeLoopS search ps max_members scraped acc eng seen

/-- All records seen (offered to `add_unique_member`) during one
`scrape_channel` sweep with cap `maxM` starting from engine state `eng`. -/
def scrapeSeen (search : String → Nat → Except String (List TelegramMember))
    (maxM : Nat) (eng : ScraperEngine) : List TelegramMember :=
  (scrapeLoopS search patterns maxM 0 [] eng []).2.2

/-- The instrumentation does not change the computation: dropping the seen
component of `processBatchS` gives back `processBatch`. -/
theorem processBatchS_proj (batch : List TelegramMember) (maxM scraped : Nat)
    (acc : List TelegramMember) (eng : ScraperEngine)
    (seen : List TelegramMember) :
    ((processBatchS batch maxM scraped acc eng seen).1,
      (processBatchS batch maxM scraped acc eng seen).2.1,
      (processBatchS batch maxM scraped acc eng seen).2.2.1) =
      processBatch batch maxM scraped acc eng := by
  induction batch generalizing scraped acc eng seen with
  | nil => simp [processBatchS, processBatch]
  | cons member rest ih =>
    by_cases hmem : member.id ∈ eng.dedup_set
    · simpa [processBatchS, processBatch, add_unique_member, hmem] using ih _ _ _ _
    · by_cases hbreak : scraped + 1 ≥ maxM
      · simp [processBatchS, processBatch, add_unique_member, hmem, hbreak]
      · simpa [processBatchS, processBatch, add_unique_member, hmem, hbreak]
          using ih _ _ _ _

/-- Dropping the seen component of `scrapeLoopS` gives back `scrapeLoop`. -/
theorem scrapeLoopS_proj (search : String → Nat → Except String (List TelegramMember))
    (ps : List String) (maxM scraped : Nat) (acc : List TelegramMember)
    (eng : ScraperEngine) (seen : List TelegramMember) :
    ((scrapeLoopS search ps maxM scraped acc eng seen).1,
      (scrapeLoopS search ps maxM scraped acc eng seen).2.1) =
      scrapeLoop search ps maxM scraped acc eng := by
  induction ps generalizing scraped acc eng seen with
  | nil => simp [scrapeLoopS, scrapeLoop]
  | cons p ps ih =>
    by_cases hstop : scraped ≥ maxM
    · simp [scrapeLoopS, scrapeLoop, hstop]
    · cases hsp : search p (maxM - scraped) with
      | error e => simpa [scrapeLoopS, scrapeLoop, hstop, hsp] using ih _ _ _ _
      | ok batch =>
        have hproj := processBatchS_proj batch maxM scraped acc eng seen
        have h1 : (processBatchS batch maxM scraped acc eng seen).1 =
            (processBatch batch maxM scraped acc eng).1 := by
          rw [← hproj]
        have h2 : (processBatchS batch maxM scraped acc eng seen).2.1 =
            (processBatch batch maxM scraped acc eng).2.1 := by
          rw [← hproj]
        have h3 : (processBatchS batch maxM scraped acc eng seen).2.2.1 =
            (processBatch batch maxM scraped acc eng).2.2 := by
          rw [← hproj]
        simp only [scrapeLoopS, scrapeLoop, if_neg hstop, hsp]
        rw [h1, h2, h3]
        exact ih _ _ _ _

/-- First-seen invariant of the batch loop: if everything seen so far is in
the dedup set and every accumulated record is the first seen record with
its id, both facts still hold after processing a batch. -/
theorem processBatchS_inv (batch : List TelegramMember) (maxM scraped : Nat)
    (acc : List TelegramMember) (eng : ScraperEngine) (seen : List TelegramMember)
    (h1 : ∀ e ∈ seen, e.id ∈ eng.dedup_set)
    (h2 : ∀ m ∈ acc, seen.find? (fun e => e.id == m.id) = some m) :
    (∀ e ∈ (processBatchS batch maxM scraped acc eng seen).2.2.2,
        e.id ∈ (processBatchS batch maxM scraped acc eng seen).2.2.1.dedup_set) ∧
    (∀ m ∈ (processBatchS batch maxM scraped acc eng seen).1,
        (processBatchS batch maxM scraped acc eng seen).2.2.2.find?
          (fun e => e.id == m.id) = some m) := by
  induction batch generalizing scraped acc eng seen with
  | nil =>
    simp only [processBatchS]
    exact ⟨h1, h2⟩
  | cons member rest ih =>
    by_cases hmem : member.id ∈ eng.dedup_set
    · -- duplicate: seen grows, nothing else changes
      have h1' : ∀ e ∈ seen ++ [member], e.id ∈ eng.dedup_set := by
        intro e he
        rcases List.mem_append.mp he with he | he
        · exact h1 e he
        · simp only [List.mem_singleton] at he
          subst he
          exact hmem
      have h2' : ∀ m ∈ acc,
          (seen ++ [member]).find? (fun e => e.id == m.id) = some m :=
        fun m hm => find_append_some _ (h2 m hm)
      have := ih scraped acc eng (seen ++ [member]) h1' h2'
      simpa [processBatchS, add_unique_member, hmem] using this
    · -- fresh: the record is stored and becomes the first seen with its id
      have hnone : seen.find? (fun e => e.id == member.id) = none := by
        refine List.find?_eq_none.mpr ?_
        intro e he hbe
        exact hmem (by rw [← (by simpa using hbe : e.id = member.id)]; exact h1 e he)
      have hfind : (seen ++ [member]).find? (fun e => e.id == member.id) =
          some member := by
        rw [find_append_none _ hnone]
        simp [List.find?]
      have h1' : ∀ e ∈ seen ++ [member],
          e.id ∈ member.id :: eng.dedup_set := by
        intro e he
        rcases List.mem_append.mp he with he | he
        · exact List.mem_cons_of_mem _ (h1 e he)
        · simp only [List.mem_singleton] at he
          subst he
          exact List.mem_cons_self _ _
      have h2' : ∀ m ∈ acc ++ [member],
          (seen ++ [member]).find? (fun e => e.id == m.id) = some m := by
        intro m hm
        rcases List.mem_append.mp hm with hm | hm
        · exact find_append_some _ (h2 m hm)
        · simp only [List.mem_singleton] at hm
          subst hm
          exact hfind
      by_cases hbreak : scraped + 1 ≥ maxM
      · -- cap hit: return immediately
        rw [show processBatchS (member :: rest) maxM scraped acc eng seen =
            (acc ++ [member], scraped + 1,
              { eng with
                members_cache := eng.members_cache ++ [(member.id, member)],
                dedup_set := member.id :: eng.dedup_set }, seen ++ [member]) from by
          simp [processBatchS, add_unique_member, hmem, hbreak]]
        exact ⟨h1', h2'⟩
      · have := ih (scraped + 1) (acc ++ [member])
          { eng with
            members_cache := eng.members_cache ++ [(member.id, member)],
            dedup_set := member.id :: eng.dedup_set } (seen ++ [member]) h1' h2'
        simpa [processBatchS, add_unique_member, hmem, hbreak] using this

/-- First-seen invariant of the whole sweep. -/
theorem scrapeLoopS_inv (search : String → Nat → Except String (List TelegramMember))
    (ps : List String) (maxM scraped : Nat) (acc : List TelegramMember)
    (eng : ScraperEngine) (seen : List TelegramMember)
    (h1 : ∀ e ∈ seen, e.id ∈ eng.dedup_set)
    (h2 : ∀ m ∈ acc, seen.find? (fun e => e.id == m.id) = some m) :
    ∀ m ∈ (scrapeLoopS search ps maxM scraped acc eng seen).1,
      (scrapeLoopS search ps maxM scraped acc eng seen).2.2.find?
        (fun e => e.id == m.id) = some m := by
  induction ps generalizing scraped acc eng seen with
  | nil =>
    simp only [scrapeLoopS]
    exact h2
  | cons p ps ih =>
    by_cases hstop : scraped ≥ maxM
    · simp only [scrapeLoopS, if_pos hstop]
      exact h2
    · cases hsp : search p (maxM - scraped) with
      | error e =>
        have := ih scraped acc eng seen h1 h2
        simpa [scrapeLoopS, hstop, hsp] using this
      | ok batch =>
        obtain ⟨h1', h2'⟩ := processBatchS_inv batch maxM scraped acc eng seen h1 h2
        have := ih (processBatchS batch maxM scraped acc eng seen).2.1
          (processBatchS batch maxM scraped acc eng seen).1
          (processBatchS batch maxM scraped acc eng seen).2.2.1
          (processBatchS batch maxM scraped acc eng seen).2.2.2 h1' h2'
        simpa [scrapeLoopS, hstop, hsp] using this

/-! ### Facts about the stubbed search backend -/

/-- Ids synthesized by the stub for one pattern. -/
theorem stub_map_id (pattern : String) (limit : Nat) (now : Int) :
    (scrape_with_pattern pattern limit now).map (fun m => m.id) =
      (List.range (min limit 50)).map
        (fun i : Nat => (i : Int) + (pattern.length : Int) * 1000) := by
  simp only [scrape_with_pattern, List.map_map]
  rfl

/-- Batch size synthesized by the stub. -/
theorem stub_len (pattern : String) (limit : Nat) (now : Int) :
    (scrape_with_pattern pattern limit now).length = min limit 50 := by
  simp only [scrape_with_pattern, List.length_map, List.length_range]

/-- Within one stub batch all ids are pairwise distinct. -/
theorem stub_id_nodup (pattern : String) (limit : Nat) (now : Int) :
    ((scrape_with_pattern pattern limit now).map (fun m => m.id)).Nodup := by
  rw [stub_map_id]
  refine (List.nodup_range _).map ?_
  intro a b hab
  simpa using hab

/-- Every stub record's id has the shape `i + pattern.len() * 1000`. -/
theorem stub_mem_id (pattern : String) (limit : Nat) (now : Int)
    (m : TelegramMember) (hm : m ∈ scrape_with_pattern pattern limit now) :
    ∃ i : Nat, i < min limit 50 ∧
      m.id = (i : Int) + (pattern.length : Int) * 1000 := by
  simp only [scrape_with_pattern, List.mem_map] at hm
  obtain ⟨i, hi, rfl⟩ := hm
  exact ⟨i, List.mem_range.mp hi, rfl⟩

/-- Single unfolding step of the sweep on a successful pattern query. -/
theorem scrapeLoop_cons_ok (search : String → Nat → Except String (List TelegramMember))
    (p : String) (ps : List String) (maxM scraped : Nat)
    (acc : List TelegramMember) (eng : ScraperEngine)
    (batch : List TelegramMember) (hstop : ¬ scraped ≥ maxM)
    (hsp : search p (maxM - scraped) = .ok batch) :
    scrapeLoop search (p :: ps) maxM scraped acc eng =
      scrapeLoop search ps maxM
        (processBatch batch maxM scraped acc eng).2.1
        (processBatch batch maxM scraped acc eng).1
        (processBatch batch maxM scraped acc eng).2.2 := by
  simp [scrapeLoop, hstop, hsp]

/-- Second sweep step on pattern `"a"`: from a state with 50 scraped
records whose dedup entries are all below 1000, the `"a"` batch (ids
`1000..`) is entirely fresh and fills the cap exactly, for `50 < M ≤ 100`. -/
theorem scrapeLoop_a_step (now : Int) (ps : List String) (M : Nat)
    (acc : List TelegramMember) (eng1 : ScraperEngine)
    (h50 : 50 < M) (hM : M ≤ 100) (hacc : acc.length = 50)
    (hded : ∀ x ∈ eng1.dedup_set, x < 1000) :
    (scrapeLoop (stubSearch now) ("a" :: ps) M 50 acc eng1).1.length = M := by
  rw [scrapeLoop_cons_ok (stubSearch now) "a" ps M 50 acc eng1
    (scrape_with_pattern "a" (M - 50) now) (by omega) rfl]
  obtain ⟨new2, heq2, hfresh2, hnd2, hbd2⟩ :=
    processBatch_spec (scrape_with_pattern "a" (M - 50) now) M 50 acc eng1
  have hfb : ∀ m ∈ scrape_with_pattern "a" (M - 50) now,
      m.id ∉ eng1.dedup_set := by
    intro m hm hmem
    obtain ⟨i, hi, hiid⟩ := stub_mem_id _ _ _ m hm
    have hlt := hded _ hmem
    rw [hiid] at hlt
    have h1 : (("a" : String).length : Int) = 1 := by decide
    rw [h1] at hlt
    omega
  have hcnt2 : (processBatch (scrape_with_pattern "a" (M - 50) now)
      M 50 acc eng1).2.1 = 50 + (M - 50) := by
    rw [processBatch_count _ _ _ _ _ (stub_id_nodup _ _ _) hfb (by omega), stub_len]
    omega
  have hlen2 : new2.length = M - 50 := by
    rw [heq2] at hcnt2
    simpa using hcnt2
  simp only [heq2]
  rw [scrapeLoop_stop _ _ _ _ _ _ (by omega : M ≤ 50 + new2.length)]
  simp only [List.length_append]
  omega

/-- On a fresh connected context, the stub backend supplies 100 distinct
ids, so the sweep returns exactly `M` records for every `M ≤ 100`. -/
theorem stubFresh_len (now : Int) (M : Nat) (hM : M ≤ 100) :
    (scrapeLoop (stubSearch now) patterns M 0 [] connectedFresh).1.length = M := by
  rcases Nat.eq_zero_or_pos M with hM0 | hM0
  · subst hM0
    rw [scrapeLoop_stop _ _ _ _ _ _ (Nat.le_refl 0)]
    rfl
  · rw [show patterns = "" :: "a" :: ["e", "i", "o", "u", "s", "t", "n", "r"]
      from rfl]
    rw [scrapeLoop_cons_ok (stubSearch now) "" _ M 0 [] connectedFresh
      (scrape_with_pattern "" (M - 0) now) (by omega) rfl]
    obtain ⟨new1, heq1, hfresh1, hnd1, hbd1⟩ :=
      processBatch_spec (scrape_with_pattern "" (M - 0) now) M 0 [] connectedFresh
    have hcnt1 : (processBatch (scrape_with_pattern "" (M - 0) now) M 0 []
        connectedFresh).2.1 = min M 50 := by
      rw [processBatch_count _ _ _ _ _ (stub_id_nodup _ _ _)
        (by intro m hm; simp [connectedFresh]) hM0]
      rw [stub_len]
      omega
    have hlen1 : new1.length = min M 50 := by
      rw [heq1] at hcnt1
      simpa using hcnt1
    by_cases h50 : M ≤ 50
    · simp only [heq1]
      rw [scrapeLoop_stop _ _ _ _ _ _ (by omega : M ≤ 0 + new1.length)]
      simp only [List.nil_append, List.length_append]
      omega
    · have hded : ∀ x ∈ ((processBatch (scrape_with_pattern "" (M - 0) now)
          M 0 [] connectedFresh).2.2).dedup_set, x < 1000 := by
        simp only [heq1]
        intro x hx
        simp only [connectedFresh, List.append_nil, List.mem_reverse] at hx
        obtain ⟨m, hm, hmid⟩ := List.mem_map.mp hx
        obtain ⟨j, hj, hjid⟩ := stub_mem_id _ _ _ m ((hfresh1 m hm).2)
        have h0 : ((("" : String).length : Nat) : Int) = 0 := by decide
        rw [h0] at hjid
        rw [hjid] at hmid
        omega
      have hacc : ((processBatch (scrape_with_pattern "" (M - 0) now)
          M 0 [] connectedFresh).1).length = 50 := by
        simp only [heq1, List.nil_append]
        omega
      rw [hcnt1, show min M 50 = 50 from by omega]
      exact scrapeLoop_a_step now _ M _ _ (by omega) hM hacc hded

deriving instance DecidableEq for Except

/-- The single record returned by a fresh `max_members = 1` scrape with the
stub backend at timestamp 0. -/
def mem0 : TelegramMember :=
  { id := 0, username := some "user_0", first_name := some "User0",
    last_name := some "Last0", phone := none, is_premium := true,
    last_online := 0 }

/-- Engine state after that scrape. -/
def engAfter1 : ScraperEngine :=
  { client := some (), members_cache := [(0, mem0)], dedup_set := [0] }

/-- Combined consequences of a successful `scrape_channel` call, all read
off the sweep characterization `scrapeLoop_spec`. -/
theorem scrape_channel_ok_spec (resolve : String → Except String (Option Unit))
    (search : String → Nat → Except String (List TelegramMember))
    (eng : ScraperEngine) (target : String) (maxM : Nat)
    (members : List TelegramMember) (eng' : ScraperEngine)
    (h : scrape_channel resolve search eng target maxM = (.ok members, eng')) :
    (members.map (fun m => m.id)).Nodup ∧
    (∀ m ∈ members, m.id ∉ eng.dedup_set) ∧
    eng'.client = eng.client ∧
    eng'.members_cache = eng.members_cache ++ members.map (fun m => (m.id, m)) ∧
    eng'.dedup_set = (members.map (fun m => m.id)).reverse ++ eng.dedup_set ∧
    (∀ m ∈ members, ∃ p ∈ patterns, ∃ l b, search p l = .ok b ∧ m ∈ b) ∧
    members.length ≤ maxM := by
  obtain ⟨hc, hr, hloop⟩ := scrape_channel_ok_inv _ _ _ _ _ _ _ h
  obtain ⟨new, heq, hfresh, hnd, hsrc, hbd, hstop⟩ :=
    scrapeLoop_spec search patterns maxM 0 [] eng
  rw [heq, Prod.mk.injEq] at hloop
  obtain ⟨h1, h2⟩ := hloop
  simp only [List.nil_append] at h1
  subst h1
  subst h2
  refine ⟨hnd, hfresh, rfl, rfl, rfl, hsrc, ?_⟩
  rcases Nat.eq_zero_or_pos maxM with h0 | h0
  · rw [hstop (by omega)]
    simp
  · have := hbd h0
    omega

/-- Exhaustive case analysis of `connect`: its outcome is decided solely by
the session loader and the external client; the credential arguments are
forwarded but never validated locally. -/
theorem connect_cases (load : String → Except String Unit)
    (clientConnect : Int → String → Except String Unit)
    (eng : ScraperEngine) (api_id : Int) (api_hash : String)
    (session_file : String) :
    (∀ e, load session_file = .error e →
      connect load clientConnect eng api_id api_hash session_file =
        (.error ("Session error: " ++ e), eng)) ∧
    (∀ u e, load session_file = .ok u →
      clientConnect api_id api_hash = .error e →
      connect load clientConnect eng api_id api_hash session_file =
        (.error ("Connection failed: " ++ e), eng)) ∧
    (∀ u v, load session_file = .ok u →
      clientConnect api_id api_hash = .ok v →
      connect load clientConnect eng api_id api_hash session_file =
        (.ok (), { eng with client := some () })) := by
  refine ⟨?_, ?_, ?_⟩
  · intro e he
    simp [connect, he]
  · intro u e hu he
    simp [connect, hu, he]
  · intro u v hu hv
    simp [connect, hu, hv]

/-! ### Claim theorems -/

/-- C1: every successful `scrape_channel` result contains each id at most
once; the records stored in the cache are exactly the returned records, in
order (so the stored record for an id equals the returned one); each
returned record is the first record seen with its id during the sweep; and
`add_unique_member` on an already-seen id returns `false` and leaves the
engine (both dedup set and members cache) unchanged. -/
theorem c1_dedup_first_seen (resolve : String → Except String (Option Unit))
    (search : String → Nat → Except String (List TelegramMember))
    (eng : ScraperEngine) (target : String) (maxM : Nat)
    (members : List TelegramMember) (eng' : ScraperEngine)
    (h : scrape_channel resolve search eng target maxM = (.ok members, eng')) :
    (members.map (fun m => m.id)).Nodup ∧
    eng'.members_cache = eng.members_cache ++ members.map (fun m => (m.id, m)) ∧
    (∀ m ∈ members,
      (scrapeSeen search maxM eng).find? (fun e => e.id == m.id) = some m) ∧
    (∀ (e : ScraperEngine) (m : TelegramMember), m.id ∈ e.dedup_set →
      add_unique_member e m = (false, e)) := by
  obtain ⟨hnd, _, _, hcache, _, _, _⟩ :=
    scrape_channel_ok_spec _ _ _ _ _ _ _ h
  obtain ⟨_, _, hloop⟩ := scrape_channel_ok_inv _ _ _ _ _ _ _ h
  refine ⟨hnd, hcache, ?_, ?_⟩
  · have hproj := scrapeLoopS_proj search patterns maxM 0 [] eng []
    rw [hloop, Prod.mk.injEq] at hproj
    have hinv := scrapeLoopS_inv search patterns maxM 0 [] eng []
      (by simp) (by simp)
    intro m hm
    have := hinv m (by rw [hproj.1]; exact hm)
    simpa [scrapeSeen] using this
  · intro e m hm
    simp [add_unique_member, hm]

/-- C1 witness at a concrete run (`max_members = 1`, stub backend, fresh
connected context). -/
theorem c1_witness :
    (([mem0].map (fun m => m.id)).Nodup ∧
    engAfter1.members_cache =
      connectedFresh.members_cache ++ [mem0].map (fun m => (m.id, m)) ∧
    (∀ m ∈ [mem0],
      (scrapeSeen (stubSearch 0) 1 connectedFresh).find?
        (fun e => e.id == m.id) = some m) ∧
    (∀ (e : ScraperEngine) (m : TelegramMember), m.id ∈ e.dedup_set →
      add_unique_member e m = (false, e))) :=
  c1_dedup_first_seen resolveOk (stubSearch 0) connectedFresh "chan" 1
    [mem0] engAfter1 rfl

/-- C2: every successful scrape returns at most `max_members` records, and
with the stub backend on a fresh connected context the count is exactly
`M` whenever `M ≤ 100` (the stub can supply 100 distinct ids). -/
theorem c2_cap :
    (∀ (resolve : String → Except String (Option Unit))
      (search : String → Nat → Except String (List TelegramMember))
      (eng : ScraperEngine) (target : String) (maxM : Nat)
      (members : List TelegramMember) (eng' : ScraperEngine),
      scrape_channel resolve search eng target maxM = (.ok members, eng') →
      members.length ≤ maxM) ∧
    (∀ (resolve : String → Except String (Option Unit)) (now : Int)
      (target : String) (M : Nat) (members : List TelegramMember)
      (eng' : ScraperEngine), M ≤ 100 →
      scrape_channel resolve (stubSearch now) connectedFresh target M =
        (.ok members, eng') →
      members.length = M) := by
  constructor
  · intro resolve search eng target maxM members eng' h
    exact (scrape_channel_ok_spec _ _ _ _ _ _ _ h).2.2.2.2.2.2
  · intro resolve now target M members eng' hM h
    obtain ⟨_, _, hloop⟩ := scrape_channel_ok_inv _ _ _ _ _ _ _ h
    have := stubFresh_len now M hM
    rw [hloop] at this
    exact this

/-- C2 witness at `M = 1`. -/
theorem c2_witness :
    ([mem0] : List TelegramMember).length ≤ 1 ∧
    ([mem0] : List TelegramMember).length = 1 :=
  ⟨c2_cap.1 resolveOk (stubSearch 0) connectedFresh "chan" 1 [mem0] engAfter1 rfl,
   c2_cap.2 resolveOk 0 "chan" 1 [mem0] engAfter1 (by omega) rfl⟩

/-- C3 counterexample: a second identical `scrape_channel` call on the same
engine context does **not** return the same sequence as the first (the
first returns the id-0 record, the second the id-1000 record), and the
second call's result is **not** the cache snapshot truncated to
`max_members` (which would start with the id-0 record). -/
theorem c3_cex :
    ((scrape_channel resolveOk (stubSearch 0)
        (scrape_channel resolveOk (stubSearch 0) connectedFresh "chan" 1).2
        "chan" 1).1 ≠
      (scrape_channel resolveOk (stubSearch 0) connectedFresh "chan" 1).1) ∧
    ((scrape_channel resolveOk (stubSearch 0)
        (scrape_channel resolveOk (stubSearch 0) connectedFresh "chan" 1).2
        "chan" 1).1 ≠
      Except.ok ((((scrape_channel resolveOk (stubSearch 0)
        (scrape_channel resolveOk (stubSearch 0) connectedFresh "chan" 1).2
        "chan" 1).2).members_cache.map Prod.snd).take 1)) := by
  exact ⟨by decide, by decide⟩

/-- C3 (amended): a successful scrape returns exactly the records newly
inserted into the cache during that call, in insertion order; on a fresh
connected context this coincides with the cache snapshot truncated to
`max_members`, and (the sweep being a pure function of the task and the
context) repeated runs from equal contexts give identical sequences.  A
second identical call on the same context returns only not-yet-seen
records, which in general differs from the first call's sequence. -/
theorem c3_insertion_order :
    (∀ (resolve : String → Except String (Option Unit))
      (search : String → Nat → Except String (List TelegramMember))
      (eng : ScraperEngine) (target : String) (maxM : Nat)
      (members : List TelegramMember) (eng' : ScraperEngine),
      scrape_channel resolve search eng target maxM = (.ok members, eng') →
      eng'.members_cache =
        eng.members_cache ++ members.map (fun m => (m.id, m))) ∧
    (∀ (resolve : String → Except String (Option Unit))
      (search : String → Nat → Except String (List TelegramMember))
      (target : String) (maxM : Nat)
      (members : List TelegramMember) (eng' : ScraperEngine),
      scrape_channel resolve search connectedFresh target maxM =
        (.ok members, eng') →
      (eng'.members_cache.map Prod.snd).take maxM = members) := by
  constructor
  · intro resolve search eng target maxM members eng' h
    exact (scrape_channel_ok_spec _ _ _ _ _ _ _ h).2.2.2.1
  · intro resolve search target maxM members eng' h
    obtain ⟨_, _, _, hcache, _, _, hlen⟩ :=
      scrape_channel_ok_spec _ _ _ _ _ _ _ h
    rw [hcache]
    simp only [connectedFresh, List.nil_append, List.map_map]
    rw [show ((Prod.snd ∘ fun m => (m.id, m)) : TelegramMember → TelegramMember) =
      id from rfl]
    rw [List.map_id]
    exact List.take_of_length_le hlen

/-- C3 amended witness at a concrete run. -/
theorem c3_witness :
    engAfter1.members_cache =
      connectedFresh.members_cache ++ [mem0].map (fun m => (m.id, m)) ∧
    (engAfter1.members_cache.map Prod.snd).take 1 = [mem0] :=
  ⟨c3_insertion_order.1 resolveOk (stubSearch 0) connectedFresh "chan" 1
      [mem0] engAfter1 rfl,
   c3_insertion_order.2 resolveOk (stubSearch 0) "chan" 1 [mem0] engAfter1 rfl⟩

/-- C4: a pattern whose query fails with a `TransientError` does not abort
the sweep: the call still succeeds, and its outcome is exactly that of the
sweep over the remaining (successful) patterns — the union of their unique
records. -/
theorem c4_partial_failure (resolve : String → Except String (Option Unit))
    (search : String → Nat → Except String (List TelegramMember))
    (failp msg : String) (eng : ScraperEngine) (target : String) (maxM : Nat)
    (hcl : eng.client = some ()) (hres : resolve target = .ok (some ())) :
    scrape_channel resolve (failOn failp msg search) eng target maxM =
      (.ok (scrapeLoop search (patterns.filter (fun p => p != failp))
          maxM 0 [] eng).1,
        (scrapeLoop search (patterns.filter (fun p => p != failp))
          maxM 0 [] eng).2) := by
  rw [show scrape_channel resolve (failOn failp msg search) eng target maxM =
      (.ok (scrapeLoop (failOn failp msg search) patterns maxM 0 [] eng).1,
        (scrapeLoop (failOn failp msg search) patterns maxM 0 [] eng).2) from by
    unfold scrape_channel
    rw [hcl, hres]]
  rw [scrapeLoop_failOn]

/-- C4 witness: the stub backend failing on pattern `"a"`. -/
theorem c4_witness :
    scrape_channel resolveOk (failOn "a" "boom" (stubSearch 0)) connectedFresh
        "chan" 70 =
      (.ok (scrapeLoop (stubSearch 0) (patterns.filter (fun p => p != "a"))
          70 0 [] connectedFresh).1,
        (scrapeLoop (stubSearch 0) (patterns.filter (fun p => p != "a"))
          70 0 [] connectedFresh).2) :=
  c4_partial_failure resolveOk (stubSearch 0) "a" "boom" connectedFresh
    "chan" 70 rfl rfl

/-- C5: scraping without a prior successful connect fails: the engine
returns the `NotConnected` error ("Client not connected") leaving the
state untouched, and the boundary operation returns the failure code 0 —
before `scraper_init`, after `scraper_init` but before any connect, and
after a failed `scraper_connect`. -/
theorem c5_not_connected :
    (∀ (resolve : String → Except String (Option Unit))
      (search : String → Nat → Except String (List TelegramMember))
      (eng : ScraperEngine) (target : String) (maxM : Nat),
      eng.client = none →
      scrape_channel resolve search eng target maxM =
        (.error "Client not connected", eng)) ∧
    (∀ (resolve : String → Except String (Option Unit))
      (search : String → Nat → Except String (List TelegramMember))
      (target : String) (maxM : Nat),
      scraper_scrape_channel resolve search none target maxM =
        (0, none, none)) ∧
    (∀ (resolve : String → Except String (Option Unit))
      (search : String → Nat → Except String (List TelegramMember))
      (eng : ScraperEngine) (target : String) (maxM : Nat),
      eng.client = none →
      (scraper_scrape_channel resolve search (some eng) target maxM).1 = 0) ∧
    (∀ (installed : Bool) (g : Option ScraperEngine) (code : Int)
      (installed' : Bool) (g' : Option ScraperEngine)
      (resolve : String → Except String (Option Unit))
      (search : String → Nat → Except String (List TelegramMember))
      (target : String) (maxM : Nat),
      scraper_init installed g = some (code, installed', g') →
      (scraper_scrape_channel resolve search g' target maxM).1 = 0) ∧
    (∀ (load : String → Except String Unit)
      (cc : Int → String → Except String Unit)
      (api_id : Int) (api_hash session_file : String)
      (resolve : String → Except String (Option Unit))
      (search : String → Nat → Except String (List TelegramMember))
      (target : String) (maxM : Nat),
      (scraper_connect load cc (some ScraperEngine.new) api_id api_hash
        session_file).1 = 0 →
      (scraper_scrape_channel resolve search
        (scraper_connect load cc (some ScraperEngine.new) api_id api_hash
          session_file).2 target maxM).1 = 0) := by
  have hp1 : ∀ (resolve : String → Except String (Option Unit))
      (search : String → Nat → Except String (List TelegramMember))
      (eng : ScraperEngine) (target : String) (maxM : Nat),
      eng.client = none →
      scrape_channel resolve search eng target maxM =
        (.error "Client not connected", eng) := by
    intro resolve search eng target maxM hcl
    simp [scrape_channel, hcl]
  refine ⟨hp1, fun _ _ _ _ => rfl, ?_, ?_, ?_⟩
  · intro resolve search eng target maxM hcl
    simp [scraper_scrape_channel, hp1 resolve search eng target maxM hcl]
  · intro installed g code installed' g' resolve search target maxM hinit
    cases installed with
    | true => simp [scraper_init] at hinit
    | false =>
      have hinit' : (some (1, true, some ScraperEngine.new) :
          Option (Int × Bool × Option ScraperEngine)) =
          some (code, installed', g') := hinit
      injection hinit' with hpair
      injection hpair with h1 hrest
      injection hrest with h2 h3
      subst h3
      simp [scraper_scrape_channel,
        hp1 resolve search ScraperEngine.new target maxM rfl]
  · intro load cc api_id api_hash session_file resolve search target maxM h0
    cases hload : load session_file with
    | error e =>
      have hc := (connect_cases load cc ScraperEngine.new api_id api_hash
        session_file).1 e hload
      have hsc : scraper_connect load cc (some ScraperEngine.new) api_id
          api_hash session_file = (0, some ScraperEngine.new) := by
        simp [scraper_connect, hc]
      rw [hsc]
      simp [scraper_scrape_channel,
        hp1 resolve search ScraperEngine.new target maxM rfl]
    | ok u =>
      cases hcc : cc api_id api_hash with
      | error e =>
        have hc := (connect_cases load cc ScraperEngine.new api_id api_hash
          session_file).2.1 u e hload hcc
        have hsc : scraper_connect load cc (some ScraperEngine.new) api_id
            api_hash session_file = (0, some ScraperEngine.new) := by
          simp [scraper_connect, hc]
        rw [hsc]
        simp [scraper_scrape_channel,
          hp1 resolve search ScraperEngine.new target maxM rfl]
      | ok v =>
        have hc := (connect_cases load cc ScraperEngine.new api_id api_hash
          session_file).2.2 u v hload hcc
        have hsc : (scraper_connect load cc (some ScraperEngine.new) api_id
            api_hash session_file).1 = 1 := by
          simp [scraper_connect, hc]
        rw [hsc] at h0
        exact absurd h0 (by decide)

/-- C5 witness: concrete not-connected calls. -/
theorem c5_witness :
    scrape_channel resolveOk (stubSearch 0) ScraperEngine.new "chan" 5 =
      (.error "Client not connected", ScraperEngine.new) ∧
    scraper_scrape_channel resolveOk (stubSearch 0) none "chan" 5 =
      (0, none, none) ∧
    (scraper_scrape_channel resolveOk (stubSearch 0) (some ScraperEngine.new)
      "chan" 5).1 = 0 ∧
    (scraper_scrape_channel resolveOk (stubSearch 0) (some ScraperEngine.new)
      "x" 7).1 = 0 :=
  ⟨c5_not_connected.1 resolveOk (stubSearch 0) ScraperEngine.new "chan" 5 rfl,
   c5_not_connected.2.1 resolveOk (stubSearch 0) "chan" 5,
   c5_not_connected.2.2.1 resolveOk (stubSearch 0) ScraperEngine.new "chan" 5 rfl,
   c5_not_connected.2.2.2.1 false none 1 true (some ScraperEngine.new)
     resolveOk (stubSearch 0) "x" 7 rfl⟩

/-- C6: when the target does not resolve to a channel — the resolve call
returns no chat, or fails outright — `scrape_channel` fails with the
corresponding resolution error and the engine state (members cache and
dedup set) is returned unchanged. -/
theorem c6_resolution_atomic (resolve : String → Except String (Option Unit))
    (search : String → Nat → Except String (List TelegramMember))
    (eng : ScraperEngine) (target : String) (maxM : Nat)
    (hcl : eng.client = some ()) :
    (resolve target = .ok none →
      scrape_channel resolve search eng target maxM =
        (.error ("Target " ++ target ++ " not found"), eng)) ∧
    (∀ e, resolve target = .error e →
      scrape_channel resolve search eng target maxM =
        (.error ("Failed to resolve " ++ target ++ ": " ++ e), eng)) := by
  constructor
  · intro h
    simp [scrape_channel, hcl, h]
  · intro e h
    simp [scrape_channel, hcl, h]

/-- C6 witness: a not-found target and a failing resolve call. -/
theorem c6_witness :
    scrape_channel (fun _ => Except.ok none) (stubSearch 0) connectedFresh
      "chan" 9 = (.error "Target chan not found", connectedFresh) ∧
    scrape_channel (fun _ => Except.error "net") (stubSearch 0) connectedFresh
      "chan" 9 = (.error "Failed to resolve chan: net", connectedFresh) :=
  ⟨(c6_resolution_atomic (fun _ => Except.ok none) (stubSearch 0)
      connectedFresh "chan" 9 rfl).1 rfl,
   (c6_resolution_atomic (fun _ => Except.error "net") (stubSearch 0)
      connectedFresh "chan" 9 rfl).2 "net" rfl⟩

/-- C7 counterexample: with `max_members = 0` the target is still resolved
first — a Transport call — so a failing resolver makes the call fail
instead of returning the empty sequence. -/
theorem c7_cex :
    scrape_channel (fun _ => Except.error "net down") (stubSearch 0)
      connectedFresh "chan" 0 =
      (.error "Failed to resolve chan: net down", connectedFresh) ∧
    (scrape_channel (fun _ => Except.error "net down") (stubSearch 0)
      connectedFresh "chan" 0).1 ≠ .ok [] :=
  ⟨rfl, by decide⟩

/-- C7 (amended): with `max_members = 0` and a target that resolves,
`scrape_channel` returns the empty sequence with the engine unchanged and
issues no search query for any pattern (the result does not depend on the
search capability at all); the resolve call, however, is still made. -/
theorem c7_max_zero (resolve : String → Except String (Option Unit))
    (search search' : String → Nat → Except String (List TelegramMember))
    (eng : ScraperEngine) (target : String)
    (hcl : eng.client = some ()) (hres : resolve target = .ok (some ())) :
    scrape_channel resolve search eng target 0 = (.ok [], eng) ∧
    scrape_channel resolve search eng target 0 =
      scrape_channel resolve search' eng target 0 := by
  have key : ∀ s : String → Nat → Except String (List TelegramMember),
      scrape_channel resolve s eng target 0 = (.ok [], eng) := by
    intro s
    rw [show scrape_channel resolve s eng target 0 =
        (.ok (scrapeLoop s patterns 0 0 [] eng).1,
          (scrapeLoop s patterns 0 0 [] eng).2) from by
      unfold scrape_channel
      rw [hcl, hres]]
    rw [scrapeLoop_stop _ _ _ _ _ _ (Nat.le_refl 0)]
  exact ⟨key search, (key search).trans (key search').symm⟩

/-- C7 amended witness. -/
theorem c7_witness :
    scrape_channel resolveOk (stubSearch 0) connectedFresh "chan" 0 =
      (.ok [], connectedFresh) ∧
    scrape_channel resolveOk (stubSearch 0) connectedFresh "chan" 0 =
      scrape_channel resolveOk (fun _ _ => Except.error "down")
        connectedFresh "chan" 0 :=
  c7_max_zero resolveOk (stubSearch 0) (fun _ _ => Except.error "down")
    connectedFresh "chan" rfl rfl

/-- C8 counterexample: `connect` succeeds and establishes a session with
`api_id = 0` (non-positive) and an empty `api_hash` whenever session
loading and the external client succeed — the engine performs no argument
validation. -/
theorem c8_cex :
    connect (fun _ => .ok ()) (fun _ _ => .ok ()) ScraperEngine.new 0 ""
      "s.session" =
      (.ok (), { client := some (), members_cache := [], dedup_set := [] }) :=
  rfl

/-- C8 (amended): `connect` performs no validation of `api_id`/`api_hash`.
For every credential pair — including non-positive ids and empty hashes —
it succeeds and establishes the session as soon as the session loader and
the external client connection succeed; every failure originates from
those two collaborators, never from a local argument check. -/
theorem c8_no_validation (load : String → Except String Unit)
    (cc : Int → String → Except String Unit) (eng : ScraperEngine)
    (api_id : Int) (api_hash : String) (session_file : String)
    (hload : ∃ u, load session_file = .ok u)
    (hcc : ∃ v, cc api_id api_hash = .ok v) :
    connect load cc eng api_id api_hash session_file =
      (.ok (), { eng with client := some () }) := by
  obtain ⟨u, hu⟩ := hload
  obtain ⟨v, hv⟩ := hcc
  exact (connect_cases load cc eng api_id api_hash session_file).2.2 u v hu hv

/-- C8 amended witness at `api_id = 0`, `api_hash = ""`. -/
theorem c8_witness :
    connect (fun _ => .ok ()) (fun _ _ => .ok ()) ScraperEngine.new 0 ""
      "s.session" =
      (.ok (), { client := some (), members_cache := [], dedup_set := [] }) :=
  c8_no_validation (fun _ => .ok ()) (fun _ _ => .ok ()) ScraperEngine.new
    0 "" "s.session" ⟨(), rfl⟩ ⟨(), rfl⟩

/-- C9: a second `scraper_init` without an intervening `scraper_destroy`
is never a silent replacement and never a second allocation.  The first
call installs the global tracing subscriber and returns 1 with a fresh
engine in the slot; any later call panics inside
`tracing_subscriber::fmt::init()` (the `none` outcome) **before** the
engine slot is touched — it fails without returning success, allocates no
second Engine Context, and the engine state established by the first init
is left in place. -/
theorem c9_double_init :
    (∀ g : Option ScraperEngine,
      scraper_init false g = some (1, true, some ScraperEngine.new)) ∧
    (∀ (g g₁ : Option ScraperEngine) (code : Int) (installed₁ : Bool),
      scraper_init false g = some (code, installed₁, g₁) →
      scraper_init installed₁ g₁ = none) := by
  constructor
  · intro g
    rfl
  · intro g g₁ code installed₁ hinit
    have hinit' : (some (1, true, some ScraperEngine.new) :
        Option (Int × Bool × Option ScraperEngine)) =
        some (code, installed₁, g₁) := hinit
    injection hinit' with hpair
    injection hpair with h1 hrest
    injection hrest with h2 h3
    subst h2
    rfl

/-- C9 witness: the concrete init-twice sequence. -/
theorem c9_witness : scraper_init true (some ScraperEngine.new) = none :=
  c9_double_init.2 none (some ScraperEngine.new) 1 true rfl

/-- C10: the stub backend derives ids solely as `i + pattern.len() * 1000`
for `i < min(limit, 50)`; the empty pattern yields ids `0..49`; patterns of
equal length (in particular all nine single-char patterns) yield the same
id sequence `1000..1049`; hence there are only 100 possible ids, every
record any stub scrape can return carries one of them (and the dedup set
stays inside the same universe across calls), and a single scrape returns
at most 100 records regardless of `max_members`. -/
theorem c10_stub_ids :
    (∀ (pattern : String) (limit : Nat) (now : Int),
      (scrape_with_pattern pattern limit now).map (fun m => m.id) =
        (List.range (min limit 50)).map
          (fun i : Nat => (pattern.length : Int) * 1000 + (i : Int))) ∧
    (∀ (limit : Nat) (now : Int), 50 ≤ limit →
      (scrape_with_pattern "" limit now).map (fun m => m.id) =
        (List.range 50).map (fun i : Nat => (i : Int))) ∧
    (∀ (p q : String) (limit : Nat) (now now' : Int), p.length = q.length →
      (scrape_with_pattern p limit now).map (fun m => m.id) =
        (scrape_with_pattern q limit now').map (fun m => m.id)) ∧
    allowedIds.length = 100 ∧
    (∀ (resolve : String → Except String (Option Unit)) (now : Int)
      (eng : ScraperEngine) (target : String) (maxM : Nat)
      (members : List TelegramMember) (eng' : ScraperEngine),
      (∀ x ∈ eng.dedup_set, x ∈ allowedIds) →
      scrape_channel resolve (stubSearch now) eng target maxM =
        (.ok members, eng') →
      (∀ m ∈ members, m.id ∈ allowedIds) ∧
      (∀ x ∈ eng'.dedup_set, x ∈ allowedIds) ∧
      members.length ≤ 100) := by
  refine ⟨?_, ?_, ?_, by decide, ?_⟩
  · intro pattern limit now
    rw [stub_map_id]
    rw [show (fun i : Nat => (i : Int) + (pattern.length : Int) * 1000) =
        (fun i : Nat => (pattern.length : Int) * 1000 + (i : Int)) from
      funext fun i => by ring]
  · intro limit now h50
    rw [stub_map_id, show min limit 50 = 50 from by omega]
    rw [show (fun i : Nat => (i : Int) + ((("" : String).length : Nat) : Int)
        * 1000) = (fun i : Nat => (i : Int)) from funext fun i => by
      rw [show ((("" : String).length : Nat) : Int) = 0 from by decide]
      ring]
  · intro p q limit now now' hpq
    rw [stub_map_id, stub_map_id, hpq]
  · intro resolve now eng target maxM members eng' hsub h
    obtain ⟨hnd, _, _, _, hdedup, hsrc, _⟩ :=
      scrape_channel_ok_spec _ _ _ _ _ _ _ h
    have hmm : ∀ m ∈ members, m.id ∈ allowedIds := by
      intro m hm
      obtain ⟨p, hp, l, b, hb, hmb⟩ := hsrc m hm
      have hbe : scrape_with_pattern p l now = b := by
        simpa [stubSearch] using hb
      subst hbe
      obtain ⟨i, hi, hiid⟩ := stub_mem_id _ _ _ m hmb
      have hplen : p.length = 0 ∨ p.length = 1 :=
        (show ∀ q ∈ patterns, q.length = 0 ∨ q.length = 1 by decide) p hp
      rcases hplen with h0 | h1
      · rw [h0] at hiid
        rw [hiid]
        simp only [allowedIds, List.mem_append]
        left
        refine List.mem_map.mpr ⟨i, List.mem_range.mpr (by omega), ?_⟩
        push_cast
        ring
      · rw [h1] at hiid
        rw [hiid]
        simp only [allowedIds, List.mem_append]
        right
        refine List.mem_map.mpr ⟨i, List.mem_range.mpr (by omega), ?_⟩
        push_cast
        ring
    refine ⟨hmm, ?_, ?_⟩
    · intro x hx
      rw [hdedup] at hx
      rcases List.mem_append.mp hx with hx | hx
      · rw [List.mem_reverse] at hx
        obtain ⟨m, hm, hmid⟩ := List.mem_map.mp hx
        exact hmid ▸ hmm m hm
      · exact hsub x hx
    · have hsubids : members.map (fun m => m.id) ⊆ allowedIds := by
        intro x hx
        obtain ⟨m, hm, hmid⟩ := List.mem_map.mp hx
        exact hmid ▸ hmm m hm
      have hle := (hnd.subperm hsubids).length_le
      rw [List.length_map] at hle
      calc members.length ≤ allowedIds.length := hle
        _ = 100 := by decide

/-- C10 witness at a concrete stub scrape. -/
theorem c10_witness :
    (∀ m ∈ [mem0], m.id ∈ allowedIds) ∧
    (∀ x ∈ engAfter1.dedup_set, x ∈ allowedIds) ∧
    ([mem0] : List TelegramMember).length ≤ 100 :=
  c10_stub_ids.2.2.2.2 resolveOk 0 connectedFresh "chan" 1 [mem0] engAfter1
    (by simp [connectedFresh]) rfl

end Scraper
